import Mathlib

/-
  Verification of the goov record-validation engine.

  The development shallowly embeds the two validator implementations found in
  the repository and the conditional-rule protocol:
  * namespace VPath: the path-keyed validator (src/unnamed/part_002), which
    binds ordered rule lists to field paths and aggregates every failure into
    an ordered ValidationErrors collection;
  * namespace VTag: the tag-driven validator (src/unnamed/part_003), which
    binds a single rule per identifier, dispatches on struct-tag annotations
    and short-circuits on the first error;
  * namespace CondRules: the conditional / cross-field rule protocol of
    src/validator/rules/conditional.go (When.SetParent, When.Validate).
-/

namespace Goov

/-- Go interface values as the validators see them through reflect: strings,
integers, booleans, structs (declaration-ordered fields, each carrying its
name, its validate tag and its value), slices and arrays (with the static
information whether the element type is a struct, and whether the slice is a
nil slice), maps with string keys (with the same element-type information;
the entry list records one concrete enumeration order of the map, since Go
does not fix the iteration order of reflect MapKeys), pointers (ptrV none is
a nil pointer) and the nil interface value (reflect kind Invalid). -/
inductive GoValue where
  | strV (s : String)
  | intV (n : Int)
  | boolV (b : Bool)
  | structV (fields : List (String × String × GoValue))
  | sliceV (elemIsStruct : Bool) (isNil : Bool) (elems : List GoValue)
  | mapV (elemIsStruct : Bool) (entries : List (String × GoValue))
  | ptrV (v : Option GoValue)
  | nilV

/-- ValidationError from part_002: a field path and a message. -/
structure ValidationError where
  field : String
  message : String
deriving DecidableEq, Repr

/-- ValidationError.Error renders as "field: message". -/
def ValidationError.render (e : ValidationError) : String :=
  e.field ++ ": " ++ e.message

/-- ValidationErrors.Error joins the individual renderings with "; ". -/
def ValidationErrors.render (es : List ValidationError) : String :=
  String.intercalate "; " (es.map ValidationError.render)

namespace VPath

/-- A rule as the part_002 validator uses it: Validate(value) error, with the
optional SetParent(parent) capability.  The dispatcher always calls SetParent
(when supported) immediately before Validate, so a rule is embedded as one
function from the parent passed to SetParent and the field value passed to
Validate to an optional error message (none means the rule passed).  A rule
without the SetParent capability is a function that ignores its first
argument. -/
def ValidationRule := GoValue → GoValue → Option String

/-- The part_002 Validator: rules is a map from field path to the ordered
list of rules bound to that path; absent keys hold the empty list, matching
a Go map whose missing keys yield nil slices. -/
def Validator := String → List ValidationRule

/-- Validator.New: the empty registry. -/
def New : Validator := fun _ => []

/-- Validator.AddRule (part_002): appends the rule to the list bound to the
field path, creating the list when the key is fresh; never fails. -/
def AddRule (field : String) (rule : ValidationRule) (v : Validator) : Validator :=
  fun g => if g = field then v g ++ [rule] else v g

/-- The rule-application loop of Validator.validateValue: apply every rule in
order; each failure appends a ValidationError for the field and the loop
continues with the next rule. -/
def applyRules (field : String) (parent value : GoValue) :
    List ValidationRule → List ValidationError
  | [] => []
  | r :: rs =>
    (match r parent value with
     | some msg => [⟨field, msg⟩]
     | none => []) ++ applyRules field parent value rs

/-- Validator.validateValue (part_002): look the field path up in the rules
map (missing paths give the empty list and hence no errors) and apply every
bound rule in registration order. -/
def validateValue (reg : Validator) (field : String) (value parent : GoValue) :
    List ValidationError :=
  applyRules field parent value (reg field)

/-- Field-path construction of part_002 validateStruct: the parent path and
the field name joined with a dot, or the bare name at the root. -/
def mkPath (parentField name : String) : String :=
  if parentField = "" then name else parentField ++ "." ++ name

mutual

/-- Validator.validateStruct (part_002).  The Go function assumes its
argument is a struct reflect.Value; the struct case delegates to the field
loop (walkFields) and every other case is unreachable in the Go program, so
it contributes no errors. -/
def validateStruct (reg : Validator) : GoValue → String → GoValue → List ValidationError
  | .structV fields, parentField, parent => walkFields reg fields parentField parent
  | _, _, _ => []
termination_by structural v _ _ => v

/-- The field loop of part_002 validateStruct.  For each field, in
declaration order: recurse when the value is itself a struct; recurse into
every element, in index order, when it is a slice or array whose element type
is a struct (path name[index]); recurse into every enumerated entry when it
is a map whose element type is a struct (path name[key]); and regardless of
the recursion, validate the field value itself under its own path.  All
errors are appended in that sequence; nothing stops the loop. -/
def walkFields (reg : Validator) :
    List (String × String × GoValue) → String → GoValue → List ValidationError
  | [], _, _ => []
  | (name, _tag, value) :: rest, parentField, parent =>
      (match value with
        | .structV fs => walkFields reg fs (mkPath parentField name) parent
        | _ => [])
      ++ (match value with
        | .sliceV true _ elems => walkSlice reg elems (mkPath parentField name) 0 parent
        | _ => [])
      ++ (match value with
        | .mapV true entries => walkMap reg entries (mkPath parentField name) parent
        | _ => [])
      ++ validateValue reg (mkPath parentField name) value parent
      ++ walkFields reg rest parentField parent
termination_by structural l _ _ => l

/-- The slice/array branch of part_002 validateStruct: element j is validated
as a struct under path fieldName[j]. -/
def walkSlice (reg : Validator) :
    List GoValue → String → Nat → GoValue → List ValidationError
  | [], _, _, _ => []
  | x :: xs, fieldName, j, parent =>
      validateStruct reg x (fieldName ++ "[" ++ toString j ++ "]") parent
        ++ walkSlice reg xs fieldName (j + 1) parent
termination_by structural l _ _ _ => l

/-- The map branch of part_002 validateStruct: the entry under key k is
validated as a struct under path fieldName[k], in the enumeration order the
GoValue records for the map. -/
def walkMap (reg : Validator) :
    List (String × GoValue) → String → GoValue → List ValidationError
  | [], _, _ => []
  | (k, x) :: xs, fieldName, parent =>
      validateStruct reg x (fieldName ++ "[" ++ k ++ "]") parent
        ++ walkMap reg xs fieldName parent
termination_by structural l _ _ => l

end

/-- The single pointer dereference at the top of part_002 Validate:
reflect.ValueOf(data) followed by Elem() when the kind is Ptr.  Elem() of a
nil pointer yields the invalid reflect.Value, embedded as nilV. -/
def derefOnce : GoValue → GoValue
  | .ptrV (some v) => v
  | .ptrV none => .nilV
  | v => v

/-- Whether a reflect value has kind Struct. -/
def isStructKind : GoValue → Bool
  | .structV _ => true
  | _ => false

/-- The outcome of part_002 Validate: nil, a single configuration-level
ValidationError (returned for non-struct input), or the aggregated
ValidationErrors of the walk.  The three cases are distinct Go types
(nil error, a pointer to ValidationError, and ValidationErrors). -/
inductive GoResult where
  | ok
  | configErr (e : ValidationError)
  | errs (es : List ValidationError)
deriving DecidableEq, Repr

/-- Validator.Validate (part_002): dereference one pointer; reject non-struct
roots with the configuration error on the reserved field "input" before doing
any field validation; otherwise walk the struct with the original input value
as the parent passed to every rule, and return the aggregate errors, or ok
when there are none. -/
def Validate (reg : Validator) (data : GoValue) : GoResult :=
  let val := derefOnce data
  if isStructKind val then
    let errors := validateStruct reg val "" data
    if errors.isEmpty then .ok else .errs errors
  else
    .configErr ⟨"input", "input must be a struct"⟩

mutual

/-- The dispatch schedule of part_002 validateStruct: the ordered list of
(field path, raw value) pairs on which validateValue is invoked during the
walk, mirroring the recursion of validateStruct exactly. -/
def dispStruct : GoValue → String → List (String × GoValue)
  | .structV fields, parentField => dispFields fields parentField
  | _, _ => []
termination_by structural v _ => v

/-- The per-field dispatch schedule: for each field, the dispatches of its
nested-struct walk, then of its slice-of-struct walk, then of its
map-of-struct walk, then the field itself under its own path, then the rest
of the fields. -/
def dispFields : List (String × String × GoValue) → String → List (String × GoValue)
  | [], _ => []
  | (name, _tag, value) :: rest, parentField =>
      (match value with
        | .structV fs => dispFields fs (mkPath parentField name)
        | _ => [])
      ++ (match value with
        | .sliceV true _ elems => dispSlice elems (mkPath parentField name) 0
        | _ => [])
      ++ (match value with
        | .mapV true entries => dispMap entries (mkPath parentField name)
        | _ => [])
      ++ [(mkPath parentField name, value)]
      ++ dispFields rest parentField
termination_by structural l _ => l

/-- Dispatch schedule of the slice branch. -/
def dispSlice : List GoValue → String → Nat → List (String × GoValue)
  | [], _, _ => []
  | x :: xs, fieldName, j =>
      dispStruct x (fieldName ++ "[" ++ toString j ++ "]")
        ++ dispSlice xs fieldName (j + 1)
termination_by structural l _ _ => l

/-- Dispatch schedule of the map branch. -/
def dispMap : List (String × GoValue) → String → List (String × GoValue)
  | [], _ => []
  | (k, x) :: xs, fieldName =>
      dispStruct x (fieldName ++ "[" ++ k ++ "]")
        ++ dispMap xs fieldName
termination_by structural l _ => l

end

/-- Replay a dispatch schedule: apply the bound rules of every scheduled
(path, value) pair, with one fixed parent, concatenating the errors in
schedule order. -/
def dispatchErrors (reg : Validator) (parent : GoValue) :
    List (String × GoValue) → List ValidationError
  | [] => []
  | (p, x) :: rest =>
      applyRules p parent x (reg p) ++ dispatchErrors reg parent rest

end VPath

/-- Two GoValues denote the same Go runtime data.  A Go map does not fix an
enumeration order, so one map value is embedded by many GoValues that differ
only in the order of their entry lists; SameData relates exactly those
embeddings: it is congruence everywhere, plus permutation (generated by
adjacent transposition and transitivity) of map entry lists.  Two successive
Go validation calls on one unmodified record correspond to walks over two
SameData-related GoValues. -/
inductive SameData : GoValue → GoValue → Prop where
  | refl (v : GoValue) : SameData v v
  | ptrSomeC {a b : GoValue} : SameData a b → SameData (.ptrV (some a)) (.ptrV (some b))
  | structNil : SameData (.structV []) (.structV [])
  | structCons {v w : GoValue} {fs gs : List (String × String × GoValue)} (n t : String) :
      SameData v w → SameData (.structV fs) (.structV gs) →
      SameData (.structV ((n, t, v) :: fs)) (.structV ((n, t, w) :: gs))
  | sliceNil (b nl : Bool) : SameData (.sliceV b nl []) (.sliceV b nl [])
  | sliceCons {v w : GoValue} {es fs : List GoValue} {b nl : Bool} :
      SameData v w → SameData (.sliceV b nl es) (.sliceV b nl fs) →
      SameData (.sliceV b nl (v :: es)) (.sliceV b nl (w :: fs))
  | mapNil (b : Bool) : SameData (.mapV b []) (.mapV b [])
  | mapCons {v w : GoValue} {es fs : List (String × GoValue)} {b : Bool} (k : String) :
      SameData v w → SameData (.mapV b es) (.mapV b fs) →
      SameData (.mapV b ((k, v) :: es)) (.mapV b ((k, w) :: fs))
  | mapSwap (b : Bool) (k1 k2 : String) (v1 v2 : GoValue) (es : List (String × GoValue)) :
      SameData (.mapV b ((k1, v1) :: (k2, v2) :: es)) (.mapV b ((k2, v2) :: (k1, v1) :: es))
  | mapTrans {b : Bool} {es fs gs : List (String × GoValue)} :
      SameData (.mapV b es) (.mapV b fs) → SameData (.mapV b fs) (.mapV b gs) →
      SameData (.mapV b es) (.mapV b gs)

/-- Whether a GoValue contains no map anywhere.  On such values every
embedding of the same Go data is literally equal, because only map entry
lists carry an arbitrary enumeration order. -/
def noMap : GoValue → Bool
  | .structV [] => true
  | .structV ((_, _, v) :: fs) => noMap v && noMap (.structV fs)
  | .sliceV _ _ [] => true
  | .sliceV b nl (v :: es) => noMap v && noMap (.sliceV b nl es)
  | .mapV _ _ => false
  | .ptrV (some v) => noMap v
  | _ => true

namespace VTag

/-- strings.Split with a one-character separator, as part_003 uses it on
validate tags (separators "," and "=").  Splitting the empty string yields
one empty piece, matching Go. -/
def goSplit (sep : Char) (s : String) : List String :=
  (s.toList.foldr
    (fun c acc =>
      if c = sep then [] :: acc
      else
        match acc with
        | h :: t => (c :: h) :: t
        | [] => [[c]])
    [[]]).map (fun cs => String.mk cs)

/-- The rule name of one tag entry: the part before the first "=". -/
def specName (s : String) : String := (goSplit '=' s).headD ""

/-- The rule value of one tag entry: the part after the first "="
(parts[1] in the Go code), or the empty string when there is none. -/
def specValue (s : String) : String := ((goSplit '=' s).drop 1).headD ""

/-- Decimal digits to a number; any non-digit character fails. -/
def parseDigitsAux : List Char → Nat → Option Nat
  | [], acc => some acc
  | c :: cs, acc =>
    if c.isDigit then parseDigitsAux cs (acc * 10 + (c.toNat - 48)) else none

/-- Modelled from the spec: strconv.ParseFloat as the min tag handler uses
it.  Floating point is outside the shallow embedding, so the parser is
modelled on the integer literals that tag values such as min=18 carry; any
non-integer tag value is treated as a parse failure. -/
def goParseFloat (s : String) : Option Int :=
  match s.toList with
  | [] => none
  | '-' :: cs =>
    (match cs with
     | [] => none
     | _ => (parseDigitsAux cs 0).map (fun n => -(n : Int)))
  | cs => (parseDigitsAux cs 0).map (fun n => (n : Int))

/-- Modelled from the spec: rules.Min is called by the part_003 dispatcher
but its definition is not among the provided sources.  Per the README
(min=value validates a minimum numeric value) and its unit tests, a numeric
value below the bound fails, a numeric value at or above it passes, a nil
value passes, and a non-numeric value fails. -/
def minValidate (bound : Int) : GoValue → Option String
  | .intV n => if n < bound then some "value must be at least the minimum" else none
  | .nilV => none
  | _ => some "value must be numeric"

/-- The part_003 registry: a map from rule name to at most one rule.  R is
the type of registered rules (the rules.Rule interface). -/
def Validator (R : Type) := String → Option R

/-- Validator.New (part_003): the empty registry. -/
def New (R : Type) : Validator R := fun _ => none

/-- Validator.AddRule (part_003): map assignment, so registering a second
rule under an already-used name overwrites the previous rule. -/
def AddRule {R : Type} (name : String) (rule : R) (v : Validator R) : Validator R :=
  fun g => if g = name then some rule else v g

section Dispatch

/- bareValidate embeds rule.Validate(value) called without a preceding
SetParent; withParent embeds the pair of calls SetParent(parent) (when the
rule supports it) followed by Validate(value).  none stands for the Go nil
parent interface. -/
variable {R : Type} (bareValidate : R → GoValue → Option String)
  (withParent : R → Option GoValue → GoValue → Option String)
  (reg : Validator R)

mutual

/-- Validator.validateStruct (part_003).  fuel bounds the recursion depth and
only decreases; every theorem about the function holds for all sufficient
fuel, and the Go recursion is bounded by the structure of the data.  A nil
pointer returns nil; one pointer dereference is applied; non-structs return
nil; otherwise parent is a pointer to the current struct when the reflect
value is addressable (canAddr) and the field loop runs.  The first field
error is returned at once, prefixed with the field name. -/
def validateStruct : Nat → Bool → GoValue → Option String
  | 0, _, _ => none
  | fuel + 1, canAddr, val =>
    match val with
    | .ptrV none => none
    | .ptrV (some (.structV fields)) =>
        structLoop fuel true (some (.ptrV (some (.structV fields)))) fields
    | .ptrV (some _) => none
    | .structV fields =>
        structLoop fuel canAddr
          (if canAddr then some (.ptrV (some (.structV fields))) else none) fields
    | _ => none
termination_by structural n _ _ => n

/-- The field loop of part_003 validateStruct.  Unexported fields are not
represented in the embedding; a field with an empty tag is skipped.  A nil
pointer field is dispatched to validateField without recursion; a non-nil
pointer field is dereferenced; a struct field is recursed into and then the
field is dispatched to validateField as well.  The loop stops at the first
error, which is wrapped as "name: err". -/
def structLoop : Nat → Bool → Option GoValue → List (String × String × GoValue) → Option String
  | 0, _, _, _ => none
  | _ + 1, _, _, [] => none
  | fuel + 1, canAddr, parent, (name, tag, value) :: rest =>
    if tag = "" then structLoop fuel canAddr parent rest
    else
      match value with
      | .ptrV none =>
        (match validateField fuel (.ptrV none) tag parent with
         | some e => some (name ++ ": " ++ e)
         | none => structLoop fuel canAddr parent rest)
      | _ =>
        let deref : Bool := match value with | .ptrV (some _) => true | _ => false
        let field : GoValue := match value with | .ptrV (some x) => x | v => v
        match (match field with
               | .structV _ => validateStruct fuel (canAddr || deref) field
               | _ => none) with
        | some e => some (name ++ ": " ++ e)
        | none =>
          match validateField fuel field tag parent with
          | some e => some (name ++ ": " ++ e)
          | none => structLoop fuel canAddr parent rest
termination_by structural n _ _ _ => n

/-- Validator.validateField (part_003): an empty tag passes; otherwise the
tag is split on "," and the entries are processed in order. -/
def validateField : Nat → GoValue → String → Option GoValue → Option String
  | 0, _, _, _ => none
  | fuel + 1, field, tag, parent =>
    if tag = "" then none
    else validateSpecs fuel field (goSplit ',' tag) parent
termination_by structural n _ _ _ => n

/-- The per-entry loop of part_003 validateField.  Each entry is split on
"=" into a rule name and an optional value.  The names "slice" and "min" are
handled by dedicated branches that never consult the registry; every other
name is looked up in the registry and, when absent, fails with the
configuration error "unknown validation rule: name".  When the rule exists,
SetParent is called when supported and then Validate; the first error is
returned at once. -/
def validateSpecs : Nat → GoValue → List String → Option GoValue → Option String
  | 0, _, _, _ => none
  | _ + 1, _, [], _ => none
  | fuel + 1, field, s :: rest, parent =>
    let res : Option String :=
      if specName s = "slice" then validateSlice fuel field s
      else if specName s = "min" then
        match goParseFloat (specValue s) with
        | none => some ("invalid min value: " ++ specValue s)
        | some m => minValidate m field
      else
        match reg (specName s) with
        | none => some ("unknown validation rule: " ++ specName s)
        | some r => withParent r parent field
    match res with
    | some e => some e
    | none => validateSpecs fuel field rest parent
termination_by structural n _ _ _ => n

/-- Validator.validateSlice (part_003): the tag must be exactly
slice=ruleName; the named rule is looked up in the registry (failing with the
unknown-rule configuration error when absent); the field must be a non-nil
slice; struct elements (after pointer dereference) are recursed into as
structs, other elements are validated with the named rule, and the first
error is wrapped as "item at index i: err". -/
def validateSlice : Nat → GoValue → String → Option String
  | 0, _, _ => none
  | fuel + 1, field, tag =>
    let parts := goSplit '=' tag
    if parts.length ≠ 2 then some ("invalid slice validation format: " ++ tag)
    else
      match reg ((parts.drop 1).headD "") with
      | none => some ("unknown validation rule: " ++ (parts.drop 1).headD "")
      | some rule =>
        match field with
        | .sliceV _ true _ => some "slice is nil"
        | .sliceV _ false elems => sliceLoop fuel rule elems 0
        | _ => some "field is not a slice"
termination_by structural n _ _ => n

/-- The element loop of part_003 validateSlice.  Slice elements are always
addressable in Go, so nested struct validation runs with canAddr true. -/
def sliceLoop : Nat → R → List GoValue → Nat → Option String
  | 0, _, _, _ => none
  | _ + 1, _, [], _ => none
  | fuel + 1, rule, x :: xs, i =>
    let item : GoValue := match x with | .ptrV (some y) => y | v => v
    let res : Option String :=
      match item with
      | .structV _ => validateStruct fuel true item
      | _ => bareValidate rule item
    match res with
    | some e => some ("item at index " ++ toString i ++ ": " ++ e)
    | none => sliceLoop fuel rule xs (i + 1)
termination_by structural n _ _ _ => n

end

/-- Validator.Validate (part_003): a nil value or nil pointer is the
configuration error "value is nil"; after one pointer dereference a
non-struct is the configuration error "value must be a struct or pointer to
struct"; otherwise the struct walk runs (addressable exactly when the input
came through a pointer). -/
def Validate (fuel : Nat) (value : GoValue) : Option String :=
  match value with
  | .nilV => some "value is nil"
  | .ptrV none => some "value is nil"
  | .ptrV (some inner) =>
      match inner with
      | .structV _ => validateStruct bareValidate withParent reg fuel true inner
      | _ => some "value must be a struct or pointer to struct"
  | .structV fields => validateStruct bareValidate withParent reg fuel false (.structV fields)
  | _ => some "value must be a struct or pointer to struct"

end Dispatch

/-- A concrete rule type used to instantiate the part_003 registry in
concrete runs: a rule that always passes, and a rule that always fails with
a fixed message.  Neither supports SetParent, so both call patterns coincide. -/
inductive SimpleRule where
  | pass
  | failWith (msg : String)
deriving DecidableEq, Repr

/-- Validate(value) for SimpleRule. -/
def SimpleRule.bare : SimpleRule → GoValue → Option String
  | .pass, _ => none
  | .failWith m, _ => some m

/-- SetParent-then-Validate for SimpleRule: SetParent is not supported, so
the parent is ignored. -/
def SimpleRule.withP : SimpleRule → Option GoValue → GoValue → Option String
  | r, _, v => r.bare v

end VTag

namespace CondRules

/-- The rule universe of src/validator/rules/conditional.go, closed under the
conditional wrapper: plain is a rule that does not support SetParent (its
verdict depends only on the value); ctx is a SetParent-supporting leaf such
as CrossField, embedded as a function of its currently bound parent state and
the value; whenR is the When struct, with its Condition predicate over the
bound parent, optional Then and Else sub-rules (nil interface fields are
none) and its private parent field (none until SetParent runs). -/
inductive CRule where
  | plain (run : GoValue → Option String)
  | ctx (run : Option GoValue → GoValue → Option String) (parent : Option GoValue)
  | whenR (cond : GoValue → Bool) (thenR : Option CRule) (elseR : Option CRule)
      (parent : Option GoValue)

/-- When.SetParent (conditional.go): store the parent, and forward SetParent
to the Then and Else sub-rules whenever they support it; a plain rule is left
unchanged because the type assertion for the SetParent capability fails on
it. -/
def CRule.setParent (p : GoValue) : CRule → CRule
  | .plain f => .plain f
  | .ctx f _ => .ctx f (some p)
  | .whenR c t e _ =>
      .whenR c
        (match t with
         | some tr => some (tr.setParent p)
         | none => none)
        (match e with
         | some er => some (er.setParent p)
         | none => none)
        (some p)
termination_by structural r => r

/-- When.Validate (conditional.go): an unbound parent is the error
"parent not set"; with a bound parent, a true Condition delegates to Then
when present and passes otherwise, and a false Condition delegates to Else
when present and passes otherwise.  ctx leaves run their own function on the
bound state. -/
def CRule.validate : CRule → GoValue → Option String
  | .plain f, v => f v
  | .ctx f q, v => f q v
  | .whenR c t e q, v =>
    match q with
    | none => some "parent not set"
    | some p =>
      if c p then
        match t with
        | some tr => tr.validate v
        | none => none
      else
        match e with
        | some er => er.validate v
        | none => none
termination_by structural r _ => r

/-- Every SetParent-supporting node of the rule tree has p as its bound
parent: trivially true for plain rules, the stored state for ctx leaves, and
for When both its own parent field and, recursively, every supporting node
inside Then and Else. -/
def CRule.boundTo (p : GoValue) : CRule → Prop
  | .plain _ => True
  | .ctx _ q => q = some p
  | .whenR _ t e q =>
      q = some p
      ∧ (match t with
         | some tr => tr.boundTo p
         | none => True)
      ∧ (match e with
         | some er => er.boundTo p
         | none => True)
termination_by structural r => r

end CondRules

/-- A concrete required-style rule for concrete runs: fails on the empty
string, ignores its parent, passes everything else. -/
def requiredRuleF : VPath.ValidationRule := fun _ v =>
  match v with
  | .strV "" => some "value is required"
  | _ => none

/-- A concrete rule that always passes. -/
def passRuleF : VPath.ValidationRule := fun _ _ => none

/-- A concrete context-sensitive rule: reports which parent it was handed,
failing when the parent is the one-field top-level record named A. -/
def parentProbe : VPath.ValidationRule := fun par _ =>
  match par with
  | .structV [("A", _, _)] => some "parent-is-root"
  | _ => none

/-- A record holding a map of two nested records, each with an empty string
field F, with the map enumerated in the order a, b. -/
def c6v : GoValue :=
  .structV [("M", "",
    .mapV true [("a", .structV [("F", "", .strV "")]),
                ("b", .structV [("F", "", .strV "")])])]

/-- The same Go data as c6v with the map enumerated in the order b, a. -/
def c6w : GoValue :=
  .structV [("M", "",
    .mapV true [("b", .structV [("F", "", .strV "")]),
                ("a", .structV [("F", "", .strV "")])])]

/-- A registry binding the required-style rule to both map-entry field
paths of c6v. -/
def c6reg : VPath.Validator := fun f =>
  if f = "M[a].F" then [requiredRuleF]
  else if f = "M[b].F" then [requiredRuleF]
  else []

/-- A two-level record for exercising parent threading at depth. -/
def c10data : GoValue := .structV [("A", "", .structV [("B", "", .strV "x")])]

/-- A registry binding the parent-probing rule to the nested path A.B. -/
def c10reg : VPath.Validator := fun f =>
  if f = "A.B" then [parentProbe] else []

theorem dispatchErrors_append (reg : VPath.Validator) (parent : GoValue)
    (l1 l2 : List (String × GoValue)) :
    VPath.dispatchErrors reg parent (l1 ++ l2)
      = VPath.dispatchErrors reg parent l1 ++ VPath.dispatchErrors reg parent l2 := by
  induction l1 with
  | nil => rfl
  | cons hd tl ih =>
    obtain ⟨p, x⟩ := hd
    simp [VPath.dispatchErrors, ih]

mutual

theorem validateStruct_eq_disp (reg : VPath.Validator) (parent : GoValue)
    (v : GoValue) (pf : String) :
    VPath.validateStruct reg v pf parent
      = VPath.dispatchErrors reg parent (VPath.dispStruct v pf) := by
  cases v with
  | structV fields => exact walkFields_eq_disp reg parent fields pf
  | strV s => rfl
  | intV n => rfl
  | boolV b => rfl
  | sliceV b nl es => rfl
  | mapV b es => rfl
  | ptrV o => rfl
  | nilV => rfl
termination_by sizeOf v

theorem walkFields_eq_disp (reg : VPath.Validator) (parent : GoValue)
    (l : List (String × String × GoValue)) (pf : String) :
    VPath.walkFields reg l pf parent
      = VPath.dispatchErrors reg parent (VPath.dispFields l pf) := by
  match l with
  | [] => rfl
  | (name, tag, value) :: rest =>
    have hrest := walkFields_eq_disp reg parent rest pf
    cases value with
    | structV fs =>
      have hs := walkFields_eq_disp reg parent fs (VPath.mkPath pf name)
      simp [VPath.walkFields, VPath.dispFields, dispatchErrors_append,
        VPath.dispatchErrors, VPath.validateValue, hs, hrest, List.append_assoc]
    | sliceV b nl es =>
      cases b with
      | true =>
        have hs := walkSlice_eq_disp reg parent es (VPath.mkPath pf name) 0
        simp [VPath.walkFields, VPath.dispFields, dispatchErrors_append,
          VPath.dispatchErrors, VPath.validateValue, hs, hrest, List.append_assoc]
      | false =>
        simp [VPath.walkFields, VPath.dispFields, dispatchErrors_append,
          VPath.dispatchErrors, VPath.validateValue, hrest, List.append_assoc]
    | mapV b es =>
      cases b with
      | true =>
        have hs := walkMap_eq_disp reg parent es (VPath.mkPath pf name)
        simp [VPath.walkFields, VPath.dispFields, dispatchErrors_append,
          VPath.dispatchErrors, VPath.validateValue, hs, hrest, List.append_assoc]
      | false =>
        simp [VPath.walkFields, VPath.dispFields, dispatchErrors_append,
          VPath.dispatchErrors, VPath.validateValue, hrest, List.append_assoc]
    | strV s =>
      simp [VPath.walkFields, VPath.dispFields, dispatchErrors_append,
        VPath.dispatchErrors, VPath.validateValue, hrest, List.append_assoc]
    | intV n =>
      simp [VPath.walkFields, VPath.dispFields, dispatchErrors_append,
        VPath.dispatchErrors, VPath.validateValue, hrest, List.append_assoc]
    | boolV b =>
      simp [VPath.walkFields, VPath.dispFields, dispatchErrors_append,
        VPath.dispatchErrors, VPath.validateValue, hrest, List.append_assoc]
    | ptrV o =>
      simp [VPath.walkFields, VPath.dispFields, dispatchErrors_append,
        VPath.dispatchErrors, VPath.validateValue, hrest, List.append_assoc]
    | nilV =>
      simp [VPath.walkFields, VPath.dispFields, dispatchErrors_append,
        VPath.dispatchErrors, VPath.validateValue, hrest, List.append_assoc]
termination_by sizeOf l

theorem walkSlice_eq_disp (reg : VPath.Validator) (parent : GoValue)
    (l : List GoValue) (fieldName : String) (j : Nat) :
    VPath.walkSlice reg l fieldName j parent
      = VPath.dispatchErrors reg parent (VPath.dispSlice l fieldName j) := by
  match l with
  | [] => rfl
  | x :: xs =>
    have hx := validateStruct_eq_disp reg parent x (fieldName ++ "[" ++ toString j ++ "]")
    have hxs := walkSlice_eq_disp reg parent xs fieldName (j + 1)
    show VPath.validateStruct reg x (fieldName ++ "[" ++ toString j ++ "]") parent
        ++ VPath.walkSlice reg xs fieldName (j + 1) parent
      = VPath.dispatchErrors reg parent
          (VPath.dispStruct x (fieldName ++ "[" ++ toString j ++ "]")
            ++ VPath.dispSlice xs fieldName (j + 1))
    rw [hx, hxs, dispatchErrors_append]
termination_by sizeOf l

theorem walkMap_eq_disp (reg : VPath.Validator) (parent : GoValue)
    (l : List (String × GoValue)) (fieldName : String) :
    VPath.walkMap reg l fieldName parent
      = VPath.dispatchErrors reg parent (VPath.dispMap l fieldName) := by
  match l with
  | [] => rfl
  | (k, x) :: xs =>
    have hx := validateStruct_eq_disp reg parent x (fieldName ++ "[" ++ k ++ "]")
    have hxs := walkMap_eq_disp reg parent xs fieldName
    show VPath.validateStruct reg x (fieldName ++ "[" ++ k ++ "]") parent
        ++ VPath.walkMap reg xs fieldName parent
      = VPath.dispatchErrors reg parent
          (VPath.dispStruct x (fieldName ++ "[" ++ k ++ "]")
            ++ VPath.dispMap xs fieldName)
    rw [hx, hxs, dispatchErrors_append]
termination_by sizeOf l

end

theorem applyRules_eq_filterMap (field : String) (parent value : GoValue)
    (rs : List VPath.ValidationRule) :
    VPath.applyRules field parent value rs
      = rs.filterMap (fun r => (r parent value).map (fun m => ⟨field, m⟩)) := by
  induction rs with
  | nil => rfl
  | cons r rs ih =>
    cases h : r parent value with
    | none => simp [VPath.applyRules, h, ih]
    | some m => simp [VPath.applyRules, h, ih]

theorem applyRules_length (field : String) (parent value : GoValue)
    (rs : List VPath.ValidationRule) :
    (VPath.applyRules field parent value rs).length
      = rs.countP (fun r => (r parent value).isSome) := by
  induction rs with
  | nil => rfl
  | cons r rs ih =>
    cases h : r parent value with
    | none => simp [VPath.applyRules, h, ih, List.countP_cons]
    | some m => simp [VPath.applyRules, h, ih, List.countP_cons]

theorem applyRules_all_field (field : String) (parent value : GoValue)
    (rs : List VPath.ValidationRule) :
    (VPath.applyRules field parent value rs).all (fun e => e.field == field) = true := by
  induction rs with
  | nil => rfl
  | cons r rs ih =>
    cases h : r parent value with
    | none => simpa [VPath.applyRules, h] using ih
    | some m => simpa [VPath.applyRules, h] using ih

theorem sameData_eq {v w : GoValue} (h : SameData v w) :
    noMap v = true → v = w := by
  induction h with
  | refl v => intro _; rfl
  | ptrSomeC h ih =>
    intro hv
    rw [noMap] at hv
    rw [ih hv]
  | structNil => intro _; rfl
  | structCons n t h1 h2 ih1 ih2 =>
    intro hv
    rw [noMap, Bool.and_eq_true] at hv
    have e1 := ih1 hv.1
    have e2 := ih2 hv.2
    injection e2 with e2f
    rw [e1, e2f]
  | sliceNil b nl => intro _; rfl
  | sliceCons h1 h2 ih1 ih2 =>
    intro hv
    rw [noMap, Bool.and_eq_true] at hv
    have e1 := ih1 hv.1
    have e2 := ih2 hv.2
    injection e2 with _ _ e2f
    rw [e1, e2f]
  | mapNil b => intro _; rfl
  | mapCons k h1 h2 ih1 ih2 => intro hv; rw [noMap] at hv; exact absurd hv (by simp)
  | mapSwap b k1 k2 v1 v2 es => intro hv; rw [noMap] at hv; exact absurd hv (by simp)
  | mapTrans h1 h2 ih1 ih2 => intro hv; rw [noMap] at hv; exact absurd hv (by simp)

theorem setParent_boundTo (r : CondRules.CRule) (p : GoValue) :
    (r.setParent p).boundTo p := by
  cases r with
  | plain f => exact trivial
  | ctx f q => exact rfl
  | whenR c t e q =>
    cases t with
    | none =>
      cases e with
      | none => exact ⟨rfl, trivial, trivial⟩
      | some er => exact ⟨rfl, trivial, setParent_boundTo er p⟩
    | some tr =>
      cases e with
      | none => exact ⟨rfl, setParent_boundTo tr p, trivial⟩
      | some er => exact ⟨rfl, setParent_boundTo tr p, setParent_boundTo er p⟩
termination_by sizeOf r

/-- C1: for every field path, validateValue applies exactly the rules bound
to that path, in list order (AddRule fills the list in registration order),
appending one ValidationError per failing rule and continuing past each
failure: the result is the filterMap of the whole rule list, its length is
the number of failing rules, and every entry carries the field path. -/
theorem c1_field_rule_errors (reg : VPath.Validator) (field : String)
    (value parent : GoValue) :
    VPath.validateValue reg field value parent
      = (reg field).filterMap (fun r => (r parent value).map (fun m => ⟨field, m⟩))
    ∧ (VPath.validateValue reg field value parent).length
      = (reg field).countP (fun r => (r parent value).isSome)
    ∧ (VPath.validateValue reg field value parent).all (fun e => e.field == field) = true :=
  ⟨applyRules_eq_filterMap field parent value (reg field),
   applyRules_length field parent value (reg field),
   applyRules_all_field field parent value (reg field)⟩

/-- C2 counterexample: in the tag-driven validator, AddRule is a map
assignment, so registering a second rule under the identifier x replaces the
first rule instead of adding to a list: the registry afterwards holds only
the second rule, and validating a value the discarded first rule would have
rejected reports no error. -/
theorem c2_counterexample_addrule_replaces :
    (VTag.AddRule "x" VTag.SimpleRule.pass
        (VTag.AddRule "x" (VTag.SimpleRule.failWith "first") (VTag.New VTag.SimpleRule))) "x"
      = some VTag.SimpleRule.pass
    ∧ (VTag.AddRule "x" VTag.SimpleRule.pass
        (VTag.AddRule "x" (VTag.SimpleRule.failWith "first") (VTag.New VTag.SimpleRule))) "x"
      ≠ some (VTag.SimpleRule.failWith "first")
    ∧ VTag.validateField VTag.SimpleRule.bare VTag.SimpleRule.withP
        (VTag.AddRule "x" VTag.SimpleRule.pass
          (VTag.AddRule "x" (VTag.SimpleRule.failWith "first") (VTag.New VTag.SimpleRule)))
        5 (.strV "") "x" none = none :=
  ⟨by decide, by decide, by decide⟩

/-- C2 amended: the path-keyed validator AddRule appends the rule to the
list bound to the identifier, leaving every other identifier untouched, and
never fails; the tag-driven validator AddRule instead binds at most one rule
per identifier, so the last registration wins. -/
theorem c2_amended_register_semantics (field g : String) (rule : VPath.ValidationRule)
    (v : VPath.Validator) (hg : g ≠ field) :
    VPath.AddRule field rule v field = v field ++ [rule]
    ∧ VPath.AddRule field rule v g = v g
    ∧ (∀ (R : Type) (name : String) (r r2 : R) (reg : VTag.Validator R),
        VTag.AddRule name r2 (VTag.AddRule name r reg) name = some r2
        ∧ VTag.AddRule name r reg name = some r) := by
  refine ⟨?_, ?_, ?_⟩
  · simp [VPath.AddRule]
  · simp [VPath.AddRule, hg]
  · intro R name r r2 reg
    constructor <;> simp [VTag.AddRule]

/-- Witness for the amended C2 at concrete identifiers a and b. -/
theorem c2_amended_witness :
    VPath.AddRule "a" passRuleF VPath.New "a" = VPath.New "a" ++ [passRuleF]
    ∧ VPath.AddRule "a" passRuleF VPath.New "b" = VPath.New "b"
    ∧ (∀ (R : Type) (name : String) (r r2 : R) (reg : VTag.Validator R),
        VTag.AddRule name r2 (VTag.AddRule name r reg) name = some r2
        ∧ VTag.AddRule name r reg name = some r) :=
  c2_amended_register_semantics "a" "b" passRuleF VPath.New (by decide)

/-- C3: whenever the root, after the single pointer dereference, is not a
struct (this covers the nil interface, nil pointers and bare scalars), the
path-keyed Validate returns the configuration-level error on the reserved
field "input", the result does not depend on the registry (so no field rule
ever runs), and that result is distinct from every data-validation outcome
(both from ok and from every aggregated ValidationErrors value). -/
theorem c3_nonstruct_root_config_error (reg reg2 : VPath.Validator) (data : GoValue)
    (h : VPath.isStructKind (VPath.derefOnce data) = false) :
    VPath.Validate reg data = .configErr ⟨"input", "input must be a struct"⟩
    ∧ VPath.Validate reg data = VPath.Validate reg2 data
    ∧ (∀ es : List ValidationError,
        VPath.GoResult.configErr ⟨"input", "input must be a struct"⟩ ≠ VPath.GoResult.errs es)
    ∧ VPath.GoResult.configErr ⟨"input", "input must be a struct"⟩ ≠ VPath.GoResult.ok := by
  have h1 : VPath.Validate reg data = .configErr ⟨"input", "input must be a struct"⟩ := by
    simp [VPath.Validate, h]
  have h2 : VPath.Validate reg2 data = .configErr ⟨"input", "input must be a struct"⟩ := by
    simp [VPath.Validate, h]
  exact ⟨h1, h1.trans h2.symm, fun es => by simp, by simp⟩

/-- Witness for C3 at the nil root and at a bare scalar root. -/
theorem c3_witness :
    (VPath.isStructKind (VPath.derefOnce GoValue.nilV) = false
      ∧ VPath.Validate c6reg GoValue.nilV = .configErr ⟨"input", "input must be a struct"⟩)
    ∧ (VPath.isStructKind (VPath.derefOnce (GoValue.intV 3)) = false
      ∧ VPath.Validate VPath.New (GoValue.intV 3)
          = .configErr ⟨"input", "input must be a struct"⟩) :=
  ⟨⟨by decide, (c3_nonstruct_root_config_error c6reg VPath.New GoValue.nilV (by decide)).1⟩,
   ⟨by decide, (c3_nonstruct_root_config_error VPath.New c6reg (GoValue.intV 3) (by decide)).1⟩⟩

/-- C4 counterexample: the tag entry min=18 references the identifier min,
which is never registered (the registry is empty), yet the dispatcher does
not return a configuration error naming min: the min branch is handled
without consulting the registry, and the call reports no error at all for a
conforming value. -/
theorem c4_counterexample_min_not_looked_up :
    (VTag.New VTag.SimpleRule) "min" = none
    ∧ VTag.validateField VTag.SimpleRule.bare VTag.SimpleRule.withP (VTag.New VTag.SimpleRule)
        5 (.intV 20) "min=18" none = none :=
  ⟨rfl, by decide⟩

/-- C4 amended: for every tag entry whose rule name is neither of the
built-in names slice and min, an unregistered rule name makes the dispatcher
stop with the configuration error naming that identifier; validateField is
the comma-split loop over such entries. -/
theorem c4_amended_unknown_rule_error {R : Type} (bare : R → GoValue → Option String)
    (wp : R → Option GoValue → GoValue → Option String) (reg : VTag.Validator R)
    (fuel : Nat) (field : GoValue) (s : String) (rest : List String)
    (parent : Option GoValue) (tag : String)
    (h1 : VTag.specName s ≠ "slice") (h2 : VTag.specName s ≠ "min")
    (h3 : reg (VTag.specName s) = none) :
    VTag.validateSpecs bare wp reg (fuel + 1) field (s :: rest) parent
      = some ("unknown validation rule: " ++ VTag.specName s)
    ∧ VTag.validateField bare wp reg (fuel + 1) field tag parent
      = (if tag = "" then none
         else VTag.validateSpecs bare wp reg fuel field (VTag.goSplit ',' tag) parent) := by
  constructor
  · simp [VTag.validateSpecs, h1, h2, h3]
  · rfl

/-- Witness for the amended C4 at the unregistered identifier foo. -/
theorem c4_amended_witness :
    VTag.specName "foo" ≠ "slice"
    ∧ VTag.specName "foo" ≠ "min"
    ∧ (VTag.New VTag.SimpleRule) (VTag.specName "foo") = none
    ∧ VTag.validateSpecs VTag.SimpleRule.bare VTag.SimpleRule.withP (VTag.New VTag.SimpleRule)
        1 (.strV "v") ["foo"] none
        = some ("unknown validation rule: " ++ VTag.specName "foo") :=
  ⟨by decide, by decide, by decide,
   (c4_amended_unknown_rule_error VTag.SimpleRule.bare VTag.SimpleRule.withP (VTag.New VTag.SimpleRule)
      0 (.strV "v") "foo" [] none "x" (by decide) (by decide) (by decide)).1⟩

/-- C5: the path-keyed walk equals the replay of its dispatch schedule: every
(path, value) pair the walk visits is validated with the bound rules in
schedule order, with no early termination (the replay is a concatenation
over the whole schedule).  The per-field equations make the schedule
explicit: a field that is itself a struct is both recursed into and
dispatched under its own path; a slice or array of structs is recursed into
per element in index order under path name[index] and also dispatched
itself; a map of structs is recursed into per enumerated entry under path
name[key] and also dispatched itself; and the errors of a field are followed
by the errors of the remaining fields. -/
theorem c5_walk_recursion_and_leaf_dispatch (reg : VPath.Validator) (parent : GoValue) :
    (∀ (v : GoValue) (pf : String),
       VPath.validateStruct reg v pf parent
         = VPath.dispatchErrors reg parent (VPath.dispStruct v pf))
    ∧ (∀ (name tag pf : String) (fs : List (String × String × GoValue))
        (rest : List (String × String × GoValue)),
       VPath.walkFields reg ((name, tag, .structV fs) :: rest) pf parent
         = VPath.walkFields reg fs (VPath.mkPath pf name) parent
           ++ VPath.validateValue reg (VPath.mkPath pf name) (.structV fs) parent
           ++ VPath.walkFields reg rest pf parent)
    ∧ (∀ (name tag pf : String) (nl : Bool) (elems : List GoValue)
        (rest : List (String × String × GoValue)),
       VPath.walkFields reg ((name, tag, .sliceV true nl elems) :: rest) pf parent
         = VPath.walkSlice reg elems (VPath.mkPath pf name) 0 parent
           ++ VPath.validateValue reg (VPath.mkPath pf name) (.sliceV true nl elems) parent
           ++ VPath.walkFields reg rest pf parent)
    ∧ (∀ (name tag pf : String) (entries : List (String × GoValue))
        (rest : List (String × String × GoValue)),
       VPath.walkFields reg ((name, tag, .mapV true entries) :: rest) pf parent
         = VPath.walkMap reg entries (VPath.mkPath pf name) parent
           ++ VPath.validateValue reg (VPath.mkPath pf name) (.mapV true entries) parent
           ++ VPath.walkFields reg rest pf parent)
    ∧ (∀ (x : GoValue) (xs : List GoValue) (fieldName : String) (j : Nat),
       VPath.walkSlice reg (x :: xs) fieldName j parent
         = VPath.validateStruct reg x (fieldName ++ "[" ++ toString j ++ "]") parent
           ++ VPath.walkSlice reg xs fieldName (j + 1) parent)
    ∧ (∀ (k : String) (x : GoValue) (xs : List (String × GoValue)) (fieldName : String),
       VPath.walkMap reg ((k, x) :: xs) fieldName parent
         = VPath.validateStruct reg x (fieldName ++ "[" ++ k ++ "]") parent
           ++ VPath.walkMap reg xs fieldName parent) := by
  refine ⟨fun v pf => validateStruct_eq_disp reg parent v pf, ?_, ?_, ?_, ?_, ?_⟩
  · intro name tag pf fs rest
    rw [VPath.walkFields]
    simp [List.append_assoc]
  · intro name tag pf nl elems rest
    rw [VPath.walkFields]
    simp [List.append_assoc]
  · intro name tag pf entries rest
    rw [VPath.walkFields]
    simp [List.append_assoc]
  · intro x xs fieldName j
    rfl
  · intro k x xs fieldName
    rfl

/-- C6 counterexample: c6v and c6w embed the same Go record (one struct
field M holding a map of two nested records), differing only in the order
reflect MapKeys enumerates the map, which Go does not fix; against the same
registry the two walks produce ValidationErrors with the same content but
different order and different renderings, so two successive calls on the
unmodified record are not guaranteed byte-identical output. -/
theorem c6_counterexample_map_order :
    SameData c6v c6w
    ∧ VPath.Validate c6reg c6v ≠ VPath.Validate c6reg c6w
    ∧ VPath.Validate c6reg c6v
        = .errs [⟨"M[a].F", "value is required"⟩, ⟨"M[b].F", "value is required"⟩]
    ∧ VPath.Validate c6reg c6w
        = .errs [⟨"M[b].F", "value is required"⟩, ⟨"M[a].F", "value is required"⟩]
    ∧ ValidationErrors.render [⟨"M[a].F", "value is required"⟩, ⟨"M[b].F", "value is required"⟩]
        ≠ ValidationErrors.render [⟨"M[b].F", "value is required"⟩, ⟨"M[a].F", "value is required"⟩] := by
  refine ⟨?_, by decide, by decide, by decide, by decide⟩
  exact SameData.structCons "M" ""
    (SameData.mapSwap true "a" "b"
      (.structV [("F", "", .strV "")]) (.structV [("F", "", .strV "")]) [])
    SameData.structNil

/-- C6 amended: validating the same unmodified record twice against the same
registry is byte-identical provided the record contains no map values: on
map-free records every enumeration of the same Go data is the same GoValue,
so the result of Validate is literally equal across calls.  When a map of
nested records is present, the enumeration order of reflect MapKeys is not
fixed by Go, and the error ordering (hence the rendering) can differ between
two calls, as the counterexample shows; the content then still differs only
in order. -/
theorem c6_amended_deterministic_without_maps (reg : VPath.Validator) (v w : GoValue)
    (hm : noMap v = true) (h : SameData v w) :
    VPath.Validate reg v = VPath.Validate reg w := by
  rw [sameData_eq h hm]

/-- Witness for the amended C6 on a map-free one-field record. -/
theorem c6_amended_witness :
    noMap (GoValue.structV [("A", "", .strV "")]) = true
    ∧ VPath.Validate c6reg (GoValue.structV [("A", "", .strV "")])
        = VPath.Validate c6reg (GoValue.structV [("A", "", .strV "")]) :=
  ⟨by simp [noMap],
   c6_amended_deterministic_without_maps c6reg _ _ (by simp [noMap])
     (SameData.refl (GoValue.structV [("A", "", .strV "")]))⟩

/-- C7: a When rule with a bound context: with the predicate false and no
Else it passes whatever its Then rule would say; with the predicate true and
a Then present it delegates to Then; with the predicate false and an Else
present it delegates to Else. -/
theorem c7_when_predicate_gating (cond : GoValue → Bool)
    (t e : Option CondRules.CRule) (p v : GoValue) :
    (cond p = false → e = none →
      (CondRules.CRule.whenR cond t e (some p)).validate v = none)
    ∧ (∀ tr, cond p = true → t = some tr →
      (CondRules.CRule.whenR cond t e (some p)).validate v = tr.validate v)
    ∧ (∀ er, cond p = false → e = some er →
      (CondRules.CRule.whenR cond t e (some p)).validate v = er.validate v) := by
  refine ⟨?_, ?_, ?_⟩
  · intro hc he
    subst he
    rw [CondRules.CRule.validate.eq_def]
    simp [hc]
  · intro tr hc ht
    subst ht
    rw [CondRules.CRule.validate.eq_def]
    simp [hc]
  · intro er hc he
    subst he
    rw [CondRules.CRule.validate.eq_def]
    simp [hc]

/-- Witness for C7: a false predicate with no Else silences a Then rule that
rejects every value. -/
theorem c7_witness :
    (CondRules.CRule.whenR (fun _ => false)
      (some (.plain (fun _ => some "boom"))) none (some GoValue.nilV)).validate (.strV "x")
      = none :=
  (c7_when_predicate_gating (fun _ => false)
    (some (.plain (fun _ => some "boom"))) none GoValue.nilV (.strV "x")).1 rfl rfl

/-- C8: When.SetParent binds the context transitively: after setting a
parent on any rule tree, every SetParent-supporting node of the tree (the
When itself, its Then and Else sub-rules, and so on recursively through
nested When wrappers) holds that parent. -/
theorem c8_setparent_propagates (r : CondRules.CRule) (p : GoValue) :
    (r.setParent p).boundTo p :=
  setParent_boundTo r p

/-- C9: a When rule with a bound context whose predicate is true and whose
Then rule is nil (none) returns valid for every value, regardless of any
Else rule. -/
theorem c9_true_with_nil_then_passes (cond : GoValue → Bool)
    (e : Option CondRules.CRule) (p v : GoValue) (hc : cond p = true) :
    (CondRules.CRule.whenR cond none e (some p)).validate v = none := by
  rw [CondRules.CRule.validate.eq_def]
  simp [hc]

/-- Witness for C9 with a true predicate, nil Then and a failing Else. -/
theorem c9_witness :
    (CondRules.CRule.whenR (fun _ => true) none
      (some (.plain (fun _ => some "else-fails"))) (some GoValue.nilV)).validate (.intV 0)
      = none :=
  c9_true_with_nil_then_passes (fun _ => true)
    (some (.plain (fun _ => some "else-fails"))) GoValue.nilV (.intV 0) rfl

/-- C10: for every struct root, Validate replays the full dispatch schedule
of the walk with the parent argument fixed to the original top-level input
value data: every rule application at every nesting depth (nested records,
sequence elements and map entries included) receives data as its context,
never the immediately enclosing nested record. -/
theorem c10_parent_is_top_level (reg : VPath.Validator) (data : GoValue)
    (h : VPath.isStructKind (VPath.derefOnce data) = true) :
    VPath.Validate reg data =
      (if (VPath.dispatchErrors reg data (VPath.dispStruct (VPath.derefOnce data) "")).isEmpty
       then .ok
       else .errs (VPath.dispatchErrors reg data (VPath.dispStruct (VPath.derefOnce data) ""))) := by
  unfold VPath.Validate
  simp [h, validateStruct_eq_disp reg data (VPath.derefOnce data) ""]

/-- Witness for C10: a context-probing rule bound at depth two observes the
top-level record as its parent. -/
theorem c10_witness :
    VPath.isStructKind (VPath.derefOnce c10data) = true
    ∧ VPath.Validate c10reg c10data =
        (if (VPath.dispatchErrors c10reg c10data (VPath.dispStruct (VPath.derefOnce c10data) "")).isEmpty
         then .ok
         else .errs (VPath.dispatchErrors c10reg c10data (VPath.dispStruct (VPath.derefOnce c10data) "")))
    ∧ VPath.Validate c10reg c10data = .errs [⟨"A.B", "parent-is-root"⟩] :=
  ⟨by decide, c10_parent_is_top_level c10reg c10data (by decide), by decide⟩

end Goov
